import Mathlib

/-!
# Verification of the plspy resampling core

Shallow embedding of the plspy repository's permutation/bootstrap resampling
engines (`plsrri/bootstrap_permutation.py`) and of the Mean-Centering Task PLS
driver (`pls/pls_classes.py`), together with theorems settling the frozen
claims about them.

Modelling conventions:
* Vectors and matrices are dimension-tagged total functions (`Vec`, `Mat`);
  equality of numerical objects is extensional equality on the index range
  (`Vec.EqV`, `Mat.EqM`), matching NumPy array equality.
* The decomposition oracle (`np.linalg.svd` / `gsvd.gsvd`), the resampler
  (`resample.resample_without_replacement` / `resample_with_replacement`),
  `scipy.stats.sem` and `resample.confidence_interval` are external black
  boxes per the specification; their per-call outputs enter the embedding as
  explicit oracle parameters (`s_hat_of`, `uv_of`, draws, `sem_fn`, `ci_fn`),
  so every theorem quantifies over all behaviours the black box may exhibit.
* Exact engine arithmetic (comparisons, counting, ratios) is modelled over
  `ℚ`; derivations involving `np.sqrt` are modelled over `ℝ` with
  `Real.sqrt`; the IEEE-754 behaviour of `np.divide` at zero divisors is
  modelled by the four-constructor type `FVal`.
-/

open BigOperators

namespace Plspy

/-- A vector: a length together with a total entry function (entries outside
the range are irrelevant; see `Vec.EqV`). Models a 1-D NumPy array. -/
structure Vec (α : Type) where
  n : ℕ
  entry : ℕ → α

/-- A matrix: row and column counts with a total entry function. Models a 2-D
NumPy array. -/
structure Mat (α : Type) where
  r : ℕ
  c : ℕ
  entry : ℕ → ℕ → α

/-- Extensional equality of vectors: same length, same entries on the range. -/
def Vec.EqV {α : Type} (v w : Vec α) : Prop :=
  v.n = w.n ∧ ∀ i, i < v.n → v.entry i = w.entry i

/-- Extensional equality of matrices: same shape, same entries on the range. -/
def Mat.EqM {α : Type} (A B : Mat α) : Prop :=
  A.r = B.r ∧ A.c = B.c ∧ ∀ i, i < A.r → ∀ j, j < A.c → A.entry i j = B.entry i j

instance {α : Type} [DecidableEq α] (v w : Vec α) : Decidable (v.EqV w) := by
  unfold Vec.EqV
  infer_instance

instance {α : Type} [DecidableEq α] (A B : Mat α) : Decidable (A.EqM B) := by
  unfold Mat.EqM
  infer_instance

/-! ## Errors

`exceptions.NotImplementedError` raised by both engines on an unsupported
`rotate_method` (bootstrap_permutation.py lines 281-285 and 446-450). -/

/-- Error raised by the engines; `notImplemented` models the repository's
`exceptions.NotImplementedError`. -/
inductive PlsError where
  | notImplemented
deriving DecidableEq

/-- The rotation methods handled by the `if/elif` chains of both engines
(bootstrap_permutation.py lines 244-285 and 411-450): 0, 1 and 2. Every
other value reaches the final `else` branch and raises. -/
def validRotate (rotate_method : ℤ) : Bool :=
  rotate_method == 0 || rotate_method == 1 || rotate_method == 2

/-! ## Permutation engine (`_ResampleTestTaskPLS._permutation_test`)

Source: bootstrap_permutation.py lines 163-332.  Per iteration the source
resamples `X` (and `Y`), preprocesses, and derives resampled singular values
`s_hat` by one of three rotation methods; resampling, preprocessing and the
SVD are external black boxes, so the iteration's derived `s_hat` vector is
supplied by the oracle `s_hat_of`.  The engine's own arithmetic — the
accumulator `greatersum = np.zeros(s.shape)`, the element-wise update
`greatersum += s_hat >= s`, and the final `greatersum / niter` — is embedded
exactly. -/

/-- `np.zeros(s.shape)` (line 187). -/
def zerosLike (s : Vec ℚ) : Vec ℚ := ⟨s.n, fun _ => 0⟩

/-- One accumulator update, `greatersum += s_hat >= s` (line 326): element-wise,
add 1 where the resampled singular value is `>=` the reference one, else 0. -/
def permAccStep (s s_hat acc : Vec ℚ) : Vec ℚ :=
  ⟨acc.n, fun i => acc.entry i + if s.entry i ≤ s_hat.entry i then 1 else 0⟩

/-- The iteration loop of `_permutation_test` (lines 191-326).  `fuel` counts
the remaining iterations, `i` the current iteration index.  On an unsupported
`rotate_method` the first executed iteration raises (line 282) before the
accumulator update of line 326; the pair's second component reports the
accumulator state at the moment the loop stopped, so that the absence of
partial mutation is observable. -/
def permGo (rotate_method : ℤ) (s_hat_of : ℕ → Vec ℚ) (s : Vec ℚ) :
    ℕ → ℕ → Vec ℚ → Except PlsError (Vec ℚ) × Vec ℚ
  | 0, _, acc => (Except.ok acc, acc)
  | fuel + 1, i, acc =>
      if validRotate rotate_method then
        permGo rotate_method s_hat_of s fuel (i + 1) (permAccStep s (s_hat_of i) acc)
      else
        (Except.error PlsError.notImplemented, acc)

/-- `_permutation_test` (lines 163-332): run `niter` iterations from the zero
accumulator and return `permute_ratio = greatersum / niter` (line 328), or the
raised error. -/
def permutation_test (rotate_method : ℤ) (s_hat_of : ℕ → Vec ℚ) (s : Vec ℚ)
    (niter : ℕ) : Except PlsError (Vec ℚ) :=
  match (permGo rotate_method s_hat_of s niter 0 (zerosLike s)).1 with
  | Except.ok acc => Except.ok ⟨acc.n, fun i => acc.entry i / (niter : ℚ)⟩
  | Except.error e => Except.error e

/-! ## Independent resampling of X and Y (claim C3)

Source: bootstrap_permutation.py lines 196-199 (permutation engine) and
392-395 (bootstrap engine).  Both engines run
`X_new = resample.resample_*(X, cond_order)` and then, when `Y` is present,
`Y_new = resample.resample_*(Y, cond_order)` — two separate calls into the
external, internally-randomized resampler.  The resampler is modelled as
applying the row order it drew internally; each call consumes its own draw,
so the draw used for `X` and the draw used for `Y` are independent
parameters. -/

/-- The external resampler applied with the row order `draw` it drew
internally: row `i` of the output is row `draw i` of the input
(out-of-range indices yield the empty row, as a definite default). -/
def resampleRows (M : List (List ℚ)) (draw : List ℕ) : List (List ℚ) :=
  draw.map (fun i => M.getD i [])

/-- A draw of the without-replacement resampler is a permutation of the row
indices. -/
def isPermutationDraw (draw : List ℕ) (nrows : ℕ) : Prop :=
  draw.Perm (List.range nrows)

instance (draw : List ℕ) (nrows : ℕ) : Decidable (isPermutationDraw draw nrows) := by
  unfold isPermutationDraw
  infer_instance

/-- The X/Y resampling performed by one engine iteration (lines 196-199 and
392-395): `X` is resampled with the first call's draw, `Y` with the second
call's draw. -/
def resamplePairXY (X Y : List (List ℚ)) (drawX drawY : List ℕ) :
    List (List ℚ) × List (List ℚ) :=
  (resampleRows X drawX, resampleRows Y drawY)

/-! ## Default condition order (`_MeanCenterTaskSingleGroupPLS._get_cond_order`)

Source: pls_classes.py lines 308-323.  The Python loop is

    cond_order = []
    for i in range(len(groups_tuple)):
        group_list = []
        for k in range(num_conditions):
            group_list.extend([k] * groups_tuple[i])
            cond_order.append(group_list)
    return cond_order

Note that `cond_order.append(group_list)` sits inside the inner `k` loop, and
appends a reference to the one `group_list` object of group `i`; at return
every one of the `num_conditions` references appended for group `i` is that
same object, fully extended to `[0]*g ++ [1]*g ++ ... ++ [c-1]*g`.  The
embedding below is the returned value of that code. -/

/-- The final value of group `i`'s `group_list`: for `k` in `0..c-1`, extend by
`[k] * g` (pls_classes.py line 321). -/
def condGroupList (g c : ℕ) : List ℕ :=
  (List.range c).foldl (fun acc k => acc ++ List.replicate g k) []

/-- `_get_cond_order` (pls_classes.py lines 308-323), as the value observable
at return: for each group, `num_conditions` (aliased) copies of that group's
fully-extended condition list. -/
def get_cond_order (groups_tuple : List ℕ) (num_conditions : ℕ) : List (List ℕ) :=
  (List.range groups_tuple.length).foldl
    (fun acc i =>
      acc ++ List.replicate num_conditions
        (condGroupList (groups_tuple.getD i 0) num_conditions))
    []

/-! ## The driver's call into the resample-test orchestrator (claim C2)

Source: pls_classes.py lines 194-203.  `_MeanCenterTaskSingleGroupPLS.__init__`
executes

    self.resample_tests = bootstrap_permutation.ResampleTestTaskPLS(
        self.X, self.s, self.cond_order,
        preprocess=self._mean_center, nperm=self.num_perm,
        nboot=self.num_boot, ngroups=self.num_groups, nonrotated=None)

We embed the two facts of Python name/argument resolution that decide the
claim: the set of names defined at module level in bootstrap_permutation.py,
and the binding of the call's arguments against the parameter list of
`_ResampleTestTaskPLS.__init__` (bootstrap_permutation.py lines 120-134). -/

/-- The module-level names of bootstrap_permutation.py: its imports (lines
1-9) and its two classes (lines 12 and 63). -/
def bootstrap_permutation_module_names : List String :=
  ["abc", "np", "scipy", "gsvd", "resample", "exceptions",
   "ResampleTest", "_ResampleTestTaskPLS"]

/-- The attribute the driver looks up on the module (pls_classes.py line 194). -/
def driver_requested_attr : String := "ResampleTestTaskPLS"

/-- The parameters of `_ResampleTestTaskPLS.__init__` without defaults
(bootstrap_permutation.py lines 122-127), in order. -/
def resample_init_required_params : List String :=
  ["X", "Y", "U", "s", "V", "cond_order"]

/-- The parameters of `_ResampleTestTaskPLS.__init__` with defaults
(bootstrap_permutation.py lines 128-133). -/
def resample_init_optional_params : List String :=
  ["preprocess", "nperm", "nboot", "ngroups", "dist", "rotate_method"]

/-- The driver's call passes three positional arguments, `self.X`, `self.s`,
`self.cond_order` (pls_classes.py lines 195-197). -/
def driver_call_positional_count : ℕ := 3

/-- The keyword arguments of the driver's call (pls_classes.py lines 198-202). -/
def driver_call_keywords : List String :=
  ["preprocess", "nperm", "nboot", "ngroups", "nonrotated"]

/-- Python argument binding for the driver's call: every keyword must name a
parameter, and every required parameter not filled positionally must be
filled by a keyword. -/
def driver_call_binds : Bool :=
  driver_call_keywords.all
      (fun k => (resample_init_required_params ++ resample_init_optional_params).contains k)
    && (resample_init_required_params.drop driver_call_positional_count).all
      (fun p => driver_call_keywords.contains p)

/-! ## IEEE-style scalar values (for `np.divide`)

`np.divide` on float64 arrays performs IEEE-754 division: a nonzero finite
value divided by zero gives a signed infinity, `0.0 / 0.0` gives NaN, and no
exception is raised (only a runtime warning).  Finite-by-nonzero division is
idealized as exact rational division. -/

/-- A float64 value: finite (idealized as a rational), `inf`, `-inf`, or NaN. -/
inductive FVal where
  | finite (q : ℚ)
  | posInf
  | negInf
  | nan
deriving DecidableEq

/-- Whether an `FVal` is finite (`np.isfinite`). -/
def FVal.isFinite : FVal → Bool
  | .finite _ => true
  | _ => false

/-- IEEE-754 division as performed element-wise by `np.divide`. -/
def fdiv : FVal → FVal → FVal
  | .nan, _ => .nan
  | .finite _, .nan => .nan
  | .posInf, .nan => .nan
  | .negInf, .nan => .nan
  | .finite a, .finite b =>
      if b ≠ 0 then .finite (a / b)
      else if 0 < a then .posInf
      else if a < 0 then .negInf
      else .nan
  | .finite _, .posInf => .finite 0
  | .finite _, .negInf => .finite 0
  | .posInf, .finite b => if b < 0 then .negInf else .posInf
  | .negInf, .finite b => if b < 0 then .posInf else .negInf
  | .posInf, .posInf => .nan
  | .posInf, .negInf => .nan
  | .negInf, .posInf => .nan
  | .negInf, .negInf => .nan

/-- `np.divide(A, B)` element-wise on same-shaped matrices
(bootstrap_permutation.py line 490). -/
def matDivide (A B : Mat FVal) : Mat FVal :=
  ⟨A.r, A.c, fun i j => fdiv (A.entry i j) (B.entry i j)⟩

/-! ## Bootstrap engine (`_ResampleTestTaskPLS._bootstrap_test`)

Source: bootstrap_permutation.py lines 334-491.  Per iteration the source
resamples `X` (and `Y`) with replacement, preprocesses, and derives the
iteration's left/right singular vectors `U_hat`, `V_hat` by one of three
rotation methods; resampling, preprocessing and the SVD are external black
boxes, so the pair stored into the slot arrays at iteration `i` is supplied
by the oracle `uv_of`.  The slot arrays `left_sv_sampled` /
`right_sv_sampled` (lines 355-356) are modelled by the list of slots written
so far (each slot is written exactly once, at its own iteration, lines
480-481).  Post-loop (lines 485-491) the source computes

    conf_int = resample.confidence_interval(left_sv_sampled)
    std_errs = scipy.stats.sem(right_sv_sampled, axis=0)
    boot_ratios = np.divide(std_errs, V)

`resample.confidence_interval` and `scipy.stats.sem` are external, passed in
as `ci_fn` and `sem_fn`.  Note that the `dist` parameter (line 346) is
accepted by `_bootstrap_test` but appears nowhere in its body: in particular
it is not passed to `resample.confidence_interval` (line 486). -/

/-- The iteration loop of `_bootstrap_test` (lines 361-481).  On an
unsupported `rotate_method` the first executed iteration raises (line 447)
before the slot writes of lines 480-481; the pair's second component reports
the slots written when the loop stopped. -/
def bootGo (rotate_method : ℤ) (uv_of : ℕ → Mat FVal × Mat FVal) :
    ℕ → ℕ → List (Mat FVal × Mat FVal) →
      Except PlsError (List (Mat FVal × Mat FVal)) × List (Mat FVal × Mat FVal)
  | 0, _, slots => (Except.ok slots, slots)
  | fuel + 1, i, slots =>
      if validRotate rotate_method then
        bootGo rotate_method uv_of fuel (i + 1) (slots ++ [uv_of i])
      else
        (Except.error PlsError.notImplemented, slots)

/-- `_bootstrap_test` (lines 334-491): run `niter` iterations filling the
slots, then return
`(conf_int, std_errs, boot_ratios) = (ci_fn(left slots), sem_fn(right slots),
np.divide(std_errs, V))`, or the raised error.  The `dist` parameter is
accepted, mirroring line 346, and — exactly as in the source body — never
used. -/
def bootstrap_test (rotate_method : ℤ) (uv_of : ℕ → Mat FVal × Mat FVal)
    (V : Mat FVal) (ci_fn : List (Mat FVal) → Mat FVal × Mat FVal)
    (sem_fn : List (Mat FVal) → Mat FVal) (niter : ℕ) (dist : ℚ × ℚ) :
    Except PlsError ((Mat FVal × Mat FVal) × Mat FVal × Mat FVal) :=
  match (bootGo rotate_method uv_of niter 0 []).1 with
  | Except.error e => Except.error e
  | Except.ok slots =>
      let conf_int := ci_fn (slots.map Prod.fst)
      let std_errs := sem_fn (slots.map Prod.snd)
      let boot_ratios := matDivide std_errs V
      Except.ok (conf_int, std_errs, boot_ratios)

/-! ## Real-valued matrix operations

Idealization over `ℝ` of the NumPy float64 operations used by the rotation
derivations (claims C7, C8) and the driver's preprocessing (claim C10). -/

/-- `A @ B` (np.matmul). -/
noncomputable def matMulR (A B : Mat ℝ) : Mat ℝ :=
  ⟨A.r, B.c, fun i j => ∑ k in Finset.range A.c, A.entry i k * B.entry k j⟩

/-- `A.T` (np.transpose). -/
def transposeR (A : Mat ℝ) : Mat ℝ :=
  ⟨A.c, A.r, fun i j => A.entry j i⟩

/-- `np.sqrt(np.sum(np.power(A, 2), axis=0))`: the Euclidean norm of each
column (summation over the row axis). -/
noncomputable def colNorms (A : Mat ℝ) : Vec ℝ :=
  ⟨A.c, fun j => Real.sqrt (∑ i in Finset.range A.r, (A.entry i j) ^ 2)⟩

/-- The Euclidean norm of each row of a matrix. -/
noncomputable def rowNorms (A : Mat ℝ) : Vec ℝ :=
  ⟨A.r, fun i => Real.sqrt (∑ j in Finset.range A.c, (A.entry i j) ^ 2)⟩

/-! ## Rotation-method derivations (claims C7 and C8)

These embed the mode-specific singular-value derivations of the two engines.
In them `permuted` is the preprocessed resampled matrix, `V` the reference
right singular vectors (rows = variables, columns = components), `V_hat` the
third factor returned by `np.linalg.svd(permuted, full_matrices=False)` (the
`Vh` convention: rows are the resampled right singular vectors), and
`U_bar`, `V_bar` the first and third factors of
`np.linalg.svd(V.T @ V_hat, full_matrices=False)`. -/

/-- Permutation engine, rotation method 2 (bootstrap_permutation.py lines
265-268): `US_hat = permuted @ V;
s_hat = np.sqrt(np.sum(np.power(US_hat, 2), axis=0))`. -/
noncomputable def permModeTwoSHat (permuted V : Mat ℝ) : Vec ℝ :=
  colNorms (matMulR permuted V)

/-- Bootstrap engine, rotation method 2 (bootstrap_permutation.py lines
425-429): `US_hat = V.T @ permuted.T;
s_hat = np.sqrt(np.sum(np.power(US_hat, 2), axis=0))`. -/
noncomputable def bootModeTwoSHat (permuted V : Mat ℝ) : Vec ℝ :=
  colNorms (matMulR (transposeR V) (transposeR permuted))

/-- Permutation engine, rotation method 1, the matrix applied to `V_hat`
(bootstrap_permutation.py line 259): `rot = U_bar @ V.T`. -/
noncomputable def permModeOneRot (V U_bar : Mat ℝ) : Mat ℝ :=
  matMulR U_bar (transposeR V)

/-- Permutation engine, rotation method 1, the recomputed singular values
(bootstrap_permutation.py lines 260-263): `V_rot = V_hat @ rot;
permuted_rot = permuted @ V_rot;
s_rot = np.sqrt(np.sum(np.power(permuted_rot.T, 2), axis=0))` — note that the
source squares and column-sums the *transpose* of `permuted_rot`. -/
noncomputable def permModeOneSHat (permuted V V_hat U_bar : Mat ℝ) : Vec ℝ :=
  colNorms (transposeR (matMulR permuted (matMulR V_hat (permModeOneRot V U_bar))))

/-- Modelled from the spec: claim C8's "orthogonal rotation that best aligns
V_hat onto the reference V, obtained from the SVD of `V^T @ V_hat` (the
orthogonal Procrustes solution)" — the specification-side definition of the
refinement claim (no Procrustes routine exists under src/; only the engine
that is claimed to implement it).  Writing `V.T @ V_hat = U_bar Σ V_bar`
(NumPy `Vh` convention), we get `V_hat.T @ V = V_bar.T Σ U_bar.T`, so the
minimizer of `‖V_hat @ R - V‖_F` over orthogonal `R` — the orthogonal
Procrustes solution aligning `V_hat` onto `V` — is `R = V_bar.T @ U_bar.T`,
the product of the left and (transposed) right SVD factors. -/
noncomputable def procrustesAlign (U_bar V_bar : Mat ℝ) : Mat ℝ :=
  matMulR (transposeR V_bar) (transposeR U_bar)

/-- A matrix has orthonormal columns: the Gram matrix of its columns is the
identity on the index range. -/
def orthonormalColsR (A : Mat ℝ) : Prop :=
  ∀ j₁, j₁ < A.c → ∀ j₂, j₂ < A.c →
    (∑ i in Finset.range A.r, A.entry i j₁ * A.entry i j₂) =
      if j₁ = j₂ then 1 else 0

/-- A matrix has orthonormal rows. -/
def orthonormalRowsR (A : Mat ℝ) : Prop :=
  orthonormalColsR (transposeR A)

/-- `np.diag(s)`. -/
def diagMatR (s : Vec ℝ) : Mat ℝ :=
  ⟨s.n, s.n, fun i j => if i = j then s.entry i else 0⟩

/-- `(U, s, Vh)` is a valid output of `np.linalg.svd(M, full_matrices=False)`:
`M = U @ diag(s) @ Vh` on the index range, `U` has orthonormal columns, `Vh`
has orthonormal rows, and `s` is non-negative and non-increasing. -/
def isSVDR (M U : Mat ℝ) (s : Vec ℝ) (Vh : Mat ℝ) : Prop :=
  M.EqM (matMulR (matMulR U (diagMatR s)) Vh) ∧
    orthonormalColsR U ∧ orthonormalRowsR Vh ∧
    (∀ i, i < s.n → 0 ≤ s.entry i) ∧
    (∀ i, i + 1 < s.n → s.entry (i + 1) ≤ s.entry i)

/-! ## Driver preprocessing (`_MeanCenterTaskSingleGroupPLS._mean_center`)

Source: pls_classes.py lines 232-264, the `ngroups == 1` branch:

    prod = np.dot(np.ones((X.shape[0], 1)),
                  np.mean(X, axis=0).reshape((1, X.shape[1])))
    X_means = X - prod
    X_mc = X_means / np.linalg.norm(X_means)
    return (X_means, X_mc)

The matrix handed to the decomposition oracle by the driver is the second
component: `__init__` (lines 188-191) sets
`self.X_means, self.X_mc = self._mean_center(X, ...)` and decomposes
`self.X_mc`. -/

/-- `np.ones((nrows, 1))` (pls_classes.py line 254). -/
def onesColumnR (nrows : ℕ) : Mat ℝ :=
  ⟨nrows, 1, fun _ _ => 1⟩

/-- `np.mean(X, axis=0).reshape((1, X.shape[1]))` (pls_classes.py line 255). -/
noncomputable def colMeanRowR (X : Mat ℝ) : Mat ℝ :=
  ⟨1, X.c, fun _ j => (∑ i in Finset.range X.r, X.entry i j) / (X.r : ℝ)⟩

/-- `np.linalg.norm(A)` on a 2-D array: the Frobenius norm (NumPy default). -/
noncomputable def frobNorm (A : Mat ℝ) : ℝ :=
  Real.sqrt (∑ i in Finset.range A.r, ∑ j in Finset.range A.c, (A.entry i j) ^ 2)

/-- Element-wise matrix subtraction (`X - prod`, pls_classes.py line 258). -/
noncomputable def matSubR (A B : Mat ℝ) : Mat ℝ :=
  ⟨A.r, A.c, fun i j => A.entry i j - B.entry i j⟩

/-- Element-wise division of a matrix by a scalar (pls_classes.py line 259). -/
noncomputable def matScalarDivR (A : Mat ℝ) (t : ℝ) : Mat ℝ :=
  ⟨A.r, A.c, fun i j => A.entry i j / t⟩

/-- `_mean_center` for `ngroups = 1` (pls_classes.py lines 252-260). -/
noncomputable def mean_center (X : Mat ℝ) : Mat ℝ × Mat ℝ :=
  let prod := matMulR (onesColumnR X.r) (colMeanRowR X)
  let X_means := matSubR X prod
  let X_mc := matScalarDivR X_means (frobNorm X_means)
  (X_means, X_mc)

/-! ## Concrete sample objects used by witnesses and counterexamples -/

/-- A sample 1-element reference singular-value vector. -/
def sampleVecQ : Vec ℚ := ⟨1, fun _ => 1⟩

/-- A sample 1×1 all-ones float matrix. -/
def oneMatF : Mat FVal := ⟨1, 1, fun _ _ => FVal.finite 1⟩

/-- A sample 1×1 all-zeros float matrix. -/
def zeroMatF : Mat FVal := ⟨1, 1, fun _ _ => FVal.finite 0⟩

/-- The 2×2 identity matrix (a reference `V` with orthonormal columns). -/
def id2R : Mat ℝ :=
  ⟨2, 2, fun i j => if i = j then 1 else 0⟩

/-- The 2×2 row-swap matrix `[[0, 1], [1, 0]]` (orthogonal). -/
def swap2R : Mat ℝ :=
  ⟨2, 2, fun i j => if i = j then 0 else 1⟩

/-- A 3×2 preprocessed matrix `[[1, 0], [0, 1], [0, 0]]`. -/
def rect32R : Mat ℝ :=
  ⟨3, 2, fun i j => if i = j then 1 else 0⟩

/-- The 2×2 preprocessed matrix `diag(1, 2)`; its SVD with `Vh = swap2R` is
`diag(1, 2) = swap2R @ diag(2, 1) @ swap2R`. -/
def diag12R : Mat ℝ :=
  ⟨2, 2, fun i j => if i = j then (if i = 0 then 1 else 2) else 0⟩

/-- The singular-value vector `(2, 1)` of `diag12R`. -/
def svec21R : Vec ℝ :=
  ⟨2, fun i => if i = 0 then 2 else 1⟩

/-- The all-ones length-2 singular-value vector (of an orthogonal matrix). -/
def onesVec2R : Vec ℝ :=
  ⟨2, fun _ => 1⟩

/-- A 2×1 sample data matrix `[[0], [2]]` for the mean-centering witness. -/
def sampleX21R : Mat ℝ :=
  ⟨2, 1, fun i _ => if i = 0 then 0 else 2⟩

end Plspy

namespace Plspy

/-! ## Theorems -/

/-- Helper invariant for the permutation loop: with a supported rotation
method the loop succeeds, preserves the accumulator length, and grows each
entry by at most 1 per iteration while keeping it non-negative. -/
theorem permGo_ok_bounds (rotate_method : ℤ) (s_hat_of : ℕ → Vec ℚ) (s : Vec ℚ)
    (hrm : validRotate rotate_method = true) :
    ∀ (fuel i : ℕ) (acc : Vec ℚ) (B : ℚ),
      (∀ j, 0 ≤ acc.entry j ∧ acc.entry j ≤ B) →
      ∃ acc', (permGo rotate_method s_hat_of s fuel i acc).1 = Except.ok acc' ∧
        acc'.n = acc.n ∧ ∀ j, 0 ≤ acc'.entry j ∧ acc'.entry j ≤ B + fuel := by
  intro fuel
  induction fuel with
  | zero =>
      intro i acc B hB
      exact ⟨acc, rfl, rfl, by simpa using hB⟩
  | succ fuel ih =>
      intro i acc B hB
      have hstep : ∀ j, 0 ≤ (permAccStep s (s_hat_of i) acc).entry j ∧
          (permAccStep s (s_hat_of i) acc).entry j ≤ B + 1 := by
        intro j
        have h0 := (hB j).1
        have h1 := (hB j).2
        constructor
        · simp only [permAccStep]
          split <;> linarith
        · simp only [permAccStep]
          split <;> linarith
      obtain ⟨acc', hok, hn, hbnd⟩ := ih (i + 1) (permAccStep s (s_hat_of i) acc) (B + 1) hstep
      refine ⟨acc', ?_, ?_, ?_⟩
      · simpa [permGo, hrm] using hok
      · simpa [permAccStep] using hn
      · intro j
        have := hbnd j
        constructor
        · exact this.1
        · have : acc'.entry j ≤ B + 1 + fuel := this.2
          push_cast
          linarith

/-- Claim C1: for every input satisfying the preconditions (at least one
iteration, a supported rotation method, a non-empty non-negative reference
singular-value vector, and every iteration's derived `s_hat` of the same
length as the reference `s`), the permutation engine returns an exceedance
ratio whose shape equals the shape of `s` and whose every entry lies in
`[0, 1]`. -/
theorem C1_permutation_ratio_shape_and_bounds (rotate_method : ℤ)
    (s_hat_of : ℕ → Vec ℚ) (s : Vec ℚ) (niter : ℕ)
    (hrm : validRotate rotate_method = true) (hiter : 1 ≤ niter)
    (hs_nonempty : 0 < s.n) (hs_nonneg : ∀ i, i < s.n → 0 ≤ s.entry i)
    (hshape : ∀ i, (s_hat_of i).n = s.n) :
    ∃ ratio, permutation_test rotate_method s_hat_of s niter = Except.ok ratio ∧
      ratio.n = s.n ∧ ∀ i, i < ratio.n → 0 ≤ ratio.entry i ∧ ratio.entry i ≤ 1 := by
  obtain ⟨acc, hok, hn, hbnd⟩ :=
    permGo_ok_bounds rotate_method s_hat_of s hrm niter 0 (zerosLike s) 0
      (fun j => by simp [zerosLike])
  refine ⟨⟨acc.n, fun i => acc.entry i / (niter : ℚ)⟩, ?_, ?_, ?_⟩
  · simp [permutation_test, hok]
  · simpa [zerosLike] using hn
  · intro i _
    have hb := hbnd i
    have hpos : (0 : ℚ) < (niter : ℚ) := by
      exact_mod_cast Nat.lt_of_lt_of_le Nat.zero_lt_one hiter
    constructor
    · exact div_nonneg hb.1 (le_of_lt hpos)
    · rw [div_le_one hpos]
      have := hb.2
      simpa using this

/-- Witness for claim C1: a concrete two-iteration run with rotation method 0,
a length-2 reference `s`, and a concrete oracle; the engine returns a ratio of
length 2 with entries in `[0, 1]`. -/
theorem C1_permutation_ratio_witness :
    validRotate 0 = true ∧ (1 : ℕ) ≤ 2 ∧
      (∃ ratio,
        permutation_test 0 (fun k => ⟨2, fun i => (k : ℚ) + i⟩) ⟨2, fun i => (i : ℚ)⟩ 2 =
          Except.ok ratio ∧
        ratio.n = (⟨2, fun i => (i : ℚ)⟩ : Vec ℚ).n ∧
        ∀ i, i < ratio.n → 0 ≤ ratio.entry i ∧ ratio.entry i ≤ 1) :=
  ⟨by decide, by decide,
    C1_permutation_ratio_shape_and_bounds 0 (fun k => ⟨2, fun i => (k : ℚ) + i⟩)
      ⟨2, fun i => (i : ℚ)⟩ 2 (by decide) (by decide) (by decide)
      (fun i _ => by positivity) (fun _ => rfl)⟩

/-- Claim C9 (evaluation at the failing input): with `groups_sizes = (2,)` and
`num_conditions = 3`, the generated default condition order is three copies of
`[0, 0, 1, 1, 2, 2]` — `len(groups_tuple) * num_conditions = 3` sub-lists of
total length 18 — not the single per-group sub-list of length
`groups_sizes[0] * num_conditions = 6` that the claim (and the function's own
docstring) describe. -/
theorem C9_cond_order_replicated_eval :
    get_cond_order [2] 3 = [[0, 0, 1, 1, 2, 2], [0, 0, 1, 1, 2, 2], [0, 0, 1, 1, 2, 2]] ∧
      (get_cond_order [2] 3).length = 3 ∧
      ((get_cond_order [2] 3).map List.length).sum = 18 := by
  decide

/-- Claim C2 (evaluation at the failing call): the attribute
`ResampleTestTaskPLS` that the driver looks up on module
`bootstrap_permutation` is not among that module's names (the class is
`_ResampleTestTaskPLS`), and even against the intended class the call's
arguments do not bind: the keywords include `nonrotated`, which names no
parameter, and the required parameters `s`, `V`, `cond_order` left unfilled
by the three positional arguments are not supplied by keyword.  The
construction therefore raises before any resample test runs, and no result
bundle is stored. -/
theorem C2_driver_call_fails :
    driver_requested_attr ∉ bootstrap_permutation_module_names ∧
      driver_call_binds = false := by
  decide

/-- Claim C3 (evaluation at the failing input): both engines resample `Y` by a
second, independent call into the randomized resampler, so the draw used for
`Y` need not equal the draw used for `X`.  Concretely, with
`X = [[1], [2]]`, `Y = [[10], [20]]` and an iteration in which the resampler's
first call draws the row order `[1, 0]` and its second call draws `[0, 1]`
(both legitimate without-replacement draws), the resampled pair at row 0 is
`([2], [10])`, which is not one of the original row pairs — row correspondence
between `X` and `Y` is broken, contradicting the claim that the same resampled
indices are used for both. -/
theorem C3_independent_draws_break_correspondence :
    isPermutationDraw [1, 0] 2 ∧ isPermutationDraw [0, 1] 2 ∧ ([1, 0] : List ℕ) ≠ [0, 1] ∧
      resamplePairXY [[1], [2]] [[10], [20]] [1, 0] [0, 1] = ([[2], [1]], [[10], [20]]) ∧
      ((resamplePairXY [[1], [2]] [[10], [20]] [1, 0] [0, 1]).1.getD 0 [],
        (resamplePairXY [[1], [2]] [[10], [20]] [1, 0] [0, 1]).2.getD 0 []) ∉
        List.zip [[1], [2]] [[10], [20]] := by
  decide

/-- Claim C4 (evaluation of the defect): the `dist` parameter (`ci_bounds`) of
the bootstrap engine is accepted but never used — in particular it is not
passed to the confidence-interval computation, which is invoked on the left
singular-vector slots alone.  Consequently the engine's entire output is
identical for any two values of `dist`, so the confidence interval is not
computed at the quantiles given by `ci_bounds`, and setting
`ci_bounds = (0.5, 0.5)` has no effect whatsoever on the result. -/
theorem C4_dist_unused_in_bootstrap (rotate_method : ℤ)
    (uv_of : ℕ → Mat FVal × Mat FVal) (V : Mat FVal)
    (ci_fn : List (Mat FVal) → Mat FVal × Mat FVal)
    (sem_fn : List (Mat FVal) → Mat FVal) (niter : ℕ) (dist₁ dist₂ : ℚ × ℚ) :
    bootstrap_test rotate_method uv_of V ci_fn sem_fn niter dist₁ =
      bootstrap_test rotate_method uv_of V ci_fn sem_fn niter dist₂ := rfl

/-- Claim C5: for every rotation method outside `{0, 1, 2}` and at least one
iteration requested of each engine, the permutation engine and the bootstrap
engine both fail with `NotImplementedError`; the permutation accumulator is
still the all-zeros vector when the loop stops, and no bootstrap slot has been
written — no partial mutation is observable and no partial result is
returned. -/
theorem C5_invalid_rotation_fails_before_mutation (rotate_method : ℤ)
    (hrm : validRotate rotate_method = false) (s_hat_of : ℕ → Vec ℚ) (s : Vec ℚ)
    (uv_of : ℕ → Mat FVal × Mat FVal) (V : Mat FVal)
    (ci_fn : List (Mat FVal) → Mat FVal × Mat FVal)
    (sem_fn : List (Mat FVal) → Mat FVal) (nperm nboot : ℕ) (dist : ℚ × ℚ)
    (hp : 1 ≤ nperm) (hb : 1 ≤ nboot) :
    permutation_test rotate_method s_hat_of s nperm = Except.error PlsError.notImplemented ∧
      (permGo rotate_method s_hat_of s nperm 0 (zerosLike s)).2 = zerosLike s ∧
      bootstrap_test rotate_method uv_of V ci_fn sem_fn nboot dist =
        Except.error PlsError.notImplemented ∧
      (bootGo rotate_method uv_of nboot 0 []).2 = [] := by
  obtain ⟨k, rfl⟩ : ∃ k, nperm = k + 1 := ⟨nperm - 1, by omega⟩
  obtain ⟨m, rfl⟩ : ∃ m, nboot = m + 1 := ⟨nboot - 1, by omega⟩
  refine ⟨?_, ?_, ?_, ?_⟩ <;>
    simp [permutation_test, bootstrap_test, permGo, bootGo, hrm]

/-- Witness for claim C5: rotation method 3 with one iteration of each engine
on concrete 1-dimensional data; both engines report `NotImplementedError`, the
accumulator is untouched and no slot was written. -/
theorem C5_invalid_rotation_witness :
    validRotate 3 = false ∧ (1 : ℕ) ≤ 1 ∧
      (permutation_test 3 (fun _ => sampleVecQ) sampleVecQ 1 =
          Except.error PlsError.notImplemented ∧
        (permGo 3 (fun _ => sampleVecQ) sampleVecQ 1 0 (zerosLike sampleVecQ)).2 =
          zerosLike sampleVecQ ∧
        bootstrap_test 3 (fun _ => (zeroMatF, zeroMatF)) oneMatF
            (fun _ => (zeroMatF, zeroMatF)) (fun _ => zeroMatF) 1 (1/20, 19/20) =
          Except.error PlsError.notImplemented ∧
        (bootGo 3 (fun _ => (zeroMatF, zeroMatF)) 1 0 []).2 = []) :=
  ⟨by decide, by decide,
    C5_invalid_rotation_fails_before_mutation 3 (by decide) (fun _ => sampleVecQ)
      sampleVecQ (fun _ => (zeroMatF, zeroMatF)) oneMatF (fun _ => (zeroMatF, zeroMatF))
      (fun _ => zeroMatF) 1 1 (1/20, 19/20) (by decide) (by decide)⟩

/-- Helper: with a supported rotation method the bootstrap loop succeeds. -/
theorem bootGo_ok (rotate_method : ℤ) (uv_of : ℕ → Mat FVal × Mat FVal)
    (hrm : validRotate rotate_method = true) :
    ∀ (fuel i : ℕ) (slots : List (Mat FVal × Mat FVal)),
      ∃ slots', (bootGo rotate_method uv_of fuel i slots).1 = Except.ok slots' := by
  intro fuel
  induction fuel with
  | zero => intro i slots; exact ⟨slots, rfl⟩
  | succ fuel ih =>
      intro i slots
      simpa [bootGo, hrm] using ih (i + 1) (slots ++ [uv_of i])

/-- Helper: IEEE division of any float64 value by (finite, exact) zero is
never finite: a positive numerator gives `inf`, a negative one `-inf`, zero
or NaN numerators give NaN, and infinite numerators stay infinite. -/
theorem fdiv_by_zero_not_finite (x : FVal) :
    (fdiv x (FVal.finite 0)).isFinite = false := by
  cases x with
  | finite a =>
      by_cases h1 : 0 < a
      · simp [fdiv, h1, FVal.isFinite]
      · by_cases h2 : a < 0 <;> simp [fdiv, h1, h2, FVal.isFinite]
  | posInf => simp [fdiv, FVal.isFinite]
  | negInf => simp [fdiv, FVal.isFinite]
  | nan => simp [fdiv, FVal.isFinite]

/-- Claim C6: for every supported rotation method, the bootstrap engine
returns stability (bootstrap) ratios equal to the element-wise IEEE division
of the computed standard errors by the reference `V` — with no replacement,
clamping or zeroing — and at every position where the reference `V` entry is
zero the ratio is non-finite (infinite or NaN), whatever the standard error
there is. -/
theorem C6_boot_ratio_nonfinite_at_zero_V (rotate_method : ℤ)
    (hrm : validRotate rotate_method = true) (uv_of : ℕ → Mat FVal × Mat FVal)
    (V : Mat FVal) (ci_fn : List (Mat FVal) → Mat FVal × Mat FVal)
    (sem_fn : List (Mat FVal) → Mat FVal) (niter : ℕ) (dist : ℚ × ℚ)
    (i j : ℕ) (hi : i < V.r) (hj : j < V.c)
    (hz : V.entry i j = FVal.finite 0) :
    ∃ conf_int std_errs boot_ratios,
      bootstrap_test rotate_method uv_of V ci_fn sem_fn niter dist =
        Except.ok (conf_int, std_errs, boot_ratios) ∧
      boot_ratios = matDivide std_errs V ∧
      boot_ratios.entry i j = fdiv (std_errs.entry i j) (V.entry i j) ∧
      (boot_ratios.entry i j).isFinite = false := by
  obtain ⟨slots, hok⟩ := bootGo_ok rotate_method uv_of hrm niter 0 []
  refine ⟨ci_fn (slots.map Prod.fst), sem_fn (slots.map Prod.snd),
    matDivide (sem_fn (slots.map Prod.snd)) V, ?_, rfl, rfl, ?_⟩
  · simp [bootstrap_test, hok]
  · show (fdiv ((sem_fn (slots.map Prod.snd)).entry i j) (V.entry i j)).isFinite = false
    rw [hz]
    exact fdiv_by_zero_not_finite _

/-- Witness for claim C6: a concrete one-iteration bootstrap run with rotation
method 0 and a 1×1 reference `V` whose (0,0) entry is zero; the returned
bootstrap ratio at (0,0) is the IEEE division of the standard error by zero
and is non-finite. -/
theorem C6_boot_ratio_witness :
    validRotate 0 = true ∧ zeroMatF.entry 0 0 = FVal.finite 0 ∧
      (∃ conf_int std_errs boot_ratios,
        bootstrap_test 0 (fun _ => (oneMatF, oneMatF)) zeroMatF
            (fun _ => (zeroMatF, zeroMatF)) (fun _ => oneMatF) 1 (1/20, 19/20) =
          Except.ok (conf_int, std_errs, boot_ratios) ∧
        boot_ratios = matDivide std_errs zeroMatF ∧
        boot_ratios.entry 0 0 = fdiv (std_errs.entry 0 0) (zeroMatF.entry 0 0) ∧
        (boot_ratios.entry 0 0).isFinite = false) :=
  ⟨by decide, rfl,
    C6_boot_ratio_nonfinite_at_zero_V 0 (by decide) (fun _ => (oneMatF, oneMatF))
      zeroMatF (fun _ => (zeroMatF, zeroMatF)) (fun _ => oneMatF) 1 (1/20, 19/20)
      0 0 (by decide) (by decide) rfl⟩

/-- Helper: the identity matrix `id2R` has orthonormal columns. -/
theorem orthonormal_id2R : orthonormalColsR id2R := by
  intro j₁ h₁ j₂ h₂
  have h₁ : j₁ < 2 := h₁
  have h₂ : j₂ < 2 := h₂
  interval_cases j₁ <;> interval_cases j₂ <;>
    simp [id2R, orthonormalColsR, Finset.sum_range_succ]

/-- Counterexample for claim C7: with the preprocessed matrix
`[[1, 0], [0, 1], [0, 0]]` and the reference `V = I₂` (orthonormal columns),
the permutation engine's mode-2 vector (column norms of `permuted @ V`) has
length 2 while the bootstrap engine's (column norms of `V.T @ permuted.T`)
has length 3 — they are not the same singular-value vector. -/
theorem C7_mode2_derivations_differ :
    orthonormalColsR id2R ∧
      ¬ (bootModeTwoSHat rect32R id2R).EqV (permModeTwoSHat rect32R id2R) := by
  refine ⟨orthonormal_id2R, ?_⟩
  rintro ⟨hn, -⟩
  have h3 : (bootModeTwoSHat rect32R id2R).n = 3 := rfl
  have h2 : (permModeTwoSHat rect32R id2R).n = 2 := rfl
  rw [h3, h2] at hn
  exact absurd hn (by norm_num)

/-- Claim C7 as amended: for conformable inputs (`permuted.c = V.r`), the
bootstrap engine's mode-2 derivation — column norms of `V.T @ permuted.T` —
equals the vector of *row* norms of `permuted @ V` (one entry per row of
`permuted`), while the permutation engine's equals the column norms of
`permuted @ V` (one entry per component); the two derivations are therefore
not equivalent in general (they even differ in length whenever
`permuted @ V` is not square). -/
theorem C7_boot_mode2_is_row_norms (permuted V : Mat ℝ)
    (hdim : permuted.c = V.r) :
    (bootModeTwoSHat permuted V).EqV (rowNorms (matMulR permuted V)) := by
  refine ⟨rfl, ?_⟩
  intro i _
  simp only [bootModeTwoSHat, rowNorms, colNorms, matMulR, transposeR]
  congr 1
  apply Finset.sum_congr rfl
  intro k _
  congr 1
  rw [hdim]
  exact Finset.sum_congr rfl (fun t _ => mul_comm _ _)

/-- Witness for the amended claim C7: at the concrete conformable pair
`(rect32R, id2R)` the bootstrap mode-2 vector equals the row norms of
`rect32R @ id2R`. -/
theorem C7_boot_mode2_row_norms_witness :
    rect32R.c = id2R.r ∧
      (bootModeTwoSHat rect32R id2R).EqV (rowNorms (matMulR rect32R id2R)) :=
  ⟨rfl, C7_boot_mode2_is_row_norms rect32R id2R rfl⟩

/-- Helper: `(swap2R, (2, 1), swap2R)` is a valid SVD of `diag(1, 2)`. -/
theorem svd_of_diag12R : isSVDR diag12R swap2R svec21R swap2R := by
  refine ⟨⟨rfl, rfl, ?_⟩, ?_, ?_, ?_, ?_⟩
  · intro i hi j hj
    have hi : i < 2 := hi
    have hj : j < 2 := hj
    interval_cases i <;> interval_cases j <;>
      simp [diag12R, swap2R, svec21R, diagMatR, matMulR, Finset.sum_range_succ]
  · intro j₁ h₁ j₂ h₂
    have h₁ : j₁ < 2 := h₁
    have h₂ : j₂ < 2 := h₂
    interval_cases j₁ <;> interval_cases j₂ <;>
      simp [swap2R, Finset.sum_range_succ]
  · intro j₁ h₁ j₂ h₂
    have h₁ : j₁ < 2 := h₁
    have h₂ : j₂ < 2 := h₂
    interval_cases j₁ <;> interval_cases j₂ <;>
      simp [swap2R, transposeR, orthonormalColsR, Finset.sum_range_succ]
  · intro i hi
    have hi : i < 2 := hi
    interval_cases i <;> simp [svec21R]
  · intro i hi
    have hi : i + 1 < 2 := hi
    have hi0 : i = 0 := by omega
    subst hi0
    simp [svec21R]

/-- Helper: `(id2R, (1, 1), swap2R)` is a valid SVD of
`id2R.T @ swap2R = swap2R`. -/
theorem svd_of_idT_swap : isSVDR (matMulR (transposeR id2R) swap2R) id2R onesVec2R swap2R := by
  refine ⟨⟨rfl, rfl, ?_⟩, orthonormal_id2R, ?_, ?_, ?_⟩
  · intro i hi j hj
    have hi : i < 2 := hi
    have hj : j < 2 := hj
    interval_cases i <;> interval_cases j <;>
      simp [id2R, swap2R, onesVec2R, diagMatR, matMulR, transposeR, Finset.sum_range_succ]
  · intro j₁ h₁ j₂ h₂
    have h₁ : j₁ < 2 := h₁
    have h₂ : j₂ < 2 := h₂
    interval_cases j₁ <;> interval_cases j₂ <;>
      simp [swap2R, transposeR, orthonormalColsR, Finset.sum_range_succ]
  · intro i hi
    have hi : i < 2 := hi
    interval_cases i <;> simp [onesVec2R]
  · intro i hi
    have hi : i + 1 < 2 := hi
    have hi0 : i = 0 := by omega
    subst hi0
    simp [onesVec2R]

/-- Counterexample for claim C8: a concrete mode-1 iteration.  The
preprocessed matrix is `diag(1, 2)`, whose SVD legitimately yields
`V_hat = swap2R`; the reference `V = I₂` has orthonormal columns; and
`(U_bar, s_bar, V_bar) = (id2R, (1, 1), swap2R)` is a legitimate SVD of
`V.T @ V_hat`.  Then (i) the matrix the code applies, `rot = U_bar @ V.T`,
is not the orthogonal Procrustes solution `V_bar.T @ U_bar.T` obtained from
that SVD, and (ii) the recomputed singular values are not the column norms of
the preprocessed matrix projected onto the rotated right vectors (they are
its row norms). -/
theorem C8_mode1_not_procrustes_counterexample :
    isSVDR diag12R swap2R svec21R swap2R ∧
      isSVDR (matMulR (transposeR id2R) swap2R) id2R onesVec2R swap2R ∧
      orthonormalColsR id2R ∧
      ¬ (permModeOneRot id2R id2R).EqM (procrustesAlign id2R swap2R) ∧
      ¬ (permModeOneSHat diag12R id2R swap2R id2R).EqV
          (colNorms (matMulR diag12R (matMulR swap2R (permModeOneRot id2R id2R)))) := by
  refine ⟨svd_of_diag12R, svd_of_idT_swap, orthonormal_id2R, ?_, ?_⟩
  · rintro ⟨-, -, h⟩
    have h00 := h 0 (show 0 < 2 by norm_num) 0 (show 0 < 2 by norm_num)
    simp [permModeOneRot, procrustesAlign, id2R, swap2R, matMulR, transposeR,
      Finset.sum_range_succ] at h00
  · rintro ⟨-, h⟩
    have h0 := h 0 (show 0 < 2 by norm_num)
    have hL : (permModeOneSHat diag12R id2R swap2R id2R).entry 0 = 1 := by
      have h1 : (permModeOneSHat diag12R id2R swap2R id2R).entry 0 = Real.sqrt 1 := by
        show Real.sqrt _ = Real.sqrt 1
        congr 1
        norm_num [permModeOneSHat, permModeOneRot, colNorms, matMulR, transposeR,
          diag12R, id2R, swap2R, Finset.sum_range_succ]
      rw [h1, Real.sqrt_one]
    have hR :
        (colNorms (matMulR diag12R (matMulR swap2R (permModeOneRot id2R id2R)))).entry 0 =
          2 := by
      have h4 : (colNorms (matMulR diag12R (matMulR swap2R
          (permModeOneRot id2R id2R)))).entry 0 = Real.sqrt 4 := by
        show Real.sqrt _ = Real.sqrt 4
        congr 1
        norm_num [permModeOneRot, colNorms, matMulR, transposeR, diag12R, id2R,
          swap2R, Finset.sum_range_succ]
      rw [h4, show (4 : ℝ) = 2 ^ 2 by norm_num,
        Real.sqrt_sq (by norm_num : (0:ℝ) ≤ 2)]
    rw [hL, hR] at h0
    norm_num at h0

/-- Claim C8 as amended: in rotation mode 1 the permutation engine applies
`rot = U_bar @ V.T` to `V_hat` — a matrix built from the reference `V` itself,
not (in general) the orthogonal Procrustes solution from the SVD of
`V.T @ V_hat` — and recomputes the iteration's singular values as the *row*
norms of the preprocessed matrix projected onto the rotated right vectors
(the source squares and column-sums the transpose of `permuted @ V_rot`). -/
theorem C8_mode1_actual_formula (permuted V V_hat U_bar : Mat ℝ) :
    (permModeOneRot V U_bar).EqM (matMulR U_bar (transposeR V)) ∧
      (permModeOneSHat permuted V V_hat U_bar).EqV
        (rowNorms (matMulR permuted (matMulR V_hat (matMulR U_bar (transposeR V))))) :=
  ⟨⟨rfl, rfl, fun _ _ _ _ => rfl⟩, ⟨rfl, fun _ _ => rfl⟩⟩

/-- Claim C10: for every matrix `X` with at least one row (and, for the
unit-norm part, a nonzero centered matrix), the driver's preprocessing
returns a pair whose first component is `X` minus the row-wise broadcast of
its column means, and whose second component — the matrix the driver then
hands to the decomposition — is that centered matrix divided element-wise by
its Frobenius norm, hence of Frobenius norm exactly 1. -/
theorem C10_mean_center_centers_and_normalizes (X : Mat ℝ) (hrows : 0 < X.r)
    (hnz : frobNorm (mean_center X).1 ≠ 0) :
    (mean_center X).1.EqM
        ⟨X.r, X.c, fun i j =>
          X.entry i j - (∑ i' in Finset.range X.r, X.entry i' j) / (X.r : ℝ)⟩ ∧
      (mean_center X).2.EqM
        (matScalarDivR (mean_center X).1 (frobNorm (mean_center X).1)) ∧
      frobNorm (mean_center X).2 = 1 := by
  refine ⟨⟨rfl, rfl, ?_⟩, ⟨rfl, rfl, fun _ _ _ _ => rfl⟩, ?_⟩
  · intro i _ j _
    simp [mean_center, matSubR, matMulR, onesColumnR, colMeanRowR,
      Finset.sum_range_one]
  · have hS : (0 : ℝ) ≤
        ∑ i in Finset.range (mean_center X).1.r,
          ∑ j in Finset.range (mean_center X).1.c, ((mean_center X).1.entry i j) ^ 2 :=
      Finset.sum_nonneg fun i _ => Finset.sum_nonneg fun j _ => sq_nonneg _
    have ht2 : (frobNorm (mean_center X).1) ^ 2 =
        ∑ i in Finset.range (mean_center X).1.r,
          ∑ j in Finset.range (mean_center X).1.c, ((mean_center X).1.entry i j) ^ 2 :=
      Real.sq_sqrt hS
    have hdiv : frobNorm (mean_center X).2 =
        Real.sqrt
          ((∑ i in Finset.range (mean_center X).1.r,
            ∑ j in Finset.range (mean_center X).1.c, ((mean_center X).1.entry i j) ^ 2) /
            (frobNorm (mean_center X).1) ^ 2) := by
      have hentry : ∀ i j, ((mean_center X).2.entry i j) ^ 2 =
          ((mean_center X).1.entry i j) ^ 2 / (frobNorm (mean_center X).1) ^ 2 := by
        intro i j
        show ((mean_center X).1.entry i j / frobNorm (mean_center X).1) ^ 2 = _
        rw [div_pow]
      unfold frobNorm
      congr 1
      rw [Finset.sum_div]
      refine Finset.sum_congr rfl fun i _ => ?_
      rw [Finset.sum_div]
      exact Finset.sum_congr rfl fun j _ => hentry i j
    have hSne :
        (∑ i in Finset.range (mean_center X).1.r,
          ∑ j in Finset.range (mean_center X).1.c, ((mean_center X).1.entry i j) ^ 2) ≠ 0 := by
      rw [← ht2]
      exact pow_ne_zero 2 hnz
    rw [hdiv, ht2, div_self hSne, Real.sqrt_one]

/-- Witness for claim C10: the 2×1 matrix `[[0], [2]]` has a nonzero centered
matrix (`[[-1], [1]]`, Frobenius norm `√2`), and the preprocessed second
component has Frobenius norm 1. -/
theorem C10_mean_center_witness :
    0 < sampleX21R.r ∧ frobNorm (mean_center sampleX21R).1 ≠ 0 ∧
      frobNorm (mean_center sampleX21R).2 = 1 := by
  have hnz : frobNorm (mean_center sampleX21R).1 ≠ 0 := by
    have : frobNorm (mean_center sampleX21R).1 = Real.sqrt 2 := by
      simp [frobNorm, mean_center, matSubR, matMulR, onesColumnR, colMeanRowR,
        sampleX21R, Finset.sum_range_succ]
      norm_num
    rw [this]
    positivity
  exact ⟨by norm_num [sampleX21R], hnz,
    (C10_mean_center_centers_and_normalizes sampleX21R (by norm_num [sampleX21R]) hnz).2.2⟩

end Plspy
